import Mathlib

/-!
Shallow embedding of the job-orchestration core of `main.py` (a Flask media
download backend).  Python dictionaries are modelled as association lists,
machine floats as rationals, file-system contents as a list of
(name, mtime) pairs, and raised exceptions as an `Option String` carrying the
exception message.  Each endpoint / worker function of the source is
translated into a pure state-transforming function; theorems about those
functions settle the specification claims.
-/

/- ### Association-list model of Python dicts -/

def alistGet {α : Type} (l : List (String × α)) (k : String) : Option α :=
  match l with
  | [] => none
  | p :: rest => if p.1 = k then some p.2 else alistGet rest k

def alistSet {α : Type} (l : List (String × α)) (k : String) (v : α) :
    List (String × α) :=
  match l with
  | [] => [(k, v)]
  | p :: rest => if p.1 = k then (k, v) :: rest else p :: alistSet rest k v

theorem alistGet_set_self {α : Type} (l : List (String × α)) (k : String) (v : α) :
    alistGet (alistSet l k v) k = some v := by
  induction l with
  | nil => simp [alistGet, alistSet]
  | cons p rest ih =>
    by_cases h : p.1 = k
    · simp [alistGet, alistSet, h]
    · simp [alistGet, alistSet, h, ih]

theorem alistGet_set_ne {α : Type} (l : List (String × α)) (k k' : String) (v : α)
    (h : k' ≠ k) : alistGet (alistSet l k v) k' = alistGet l k' := by
  have hk : ¬ k = k' := fun hh => h hh.symm
  induction l with
  | nil => simp [alistGet, alistSet, hk]
  | cons p rest ih =>
    by_cases hp : p.1 = k
    · subst hp
      have hp2 : ¬ p.1 = k' := fun hh => h hh.symm
      simp [alistGet, alistSet, hp2, hk]
    · by_cases hp2 : p.1 = k'
      · simp [alistGet, alistSet, hp, hp2, hk, h]
      · simp [alistGet, alistSet, hp, hp2, ih]

theorem alistGet_mem {α : Type} {l : List (String × α)} {k : String} {v : α}
    (h : alistGet l k = some v) : (k, v) ∈ l := by
  induction l with
  | nil => simp [alistGet] at h
  | cons p rest ih =>
    by_cases hp : p.1 = k
    · simp only [alistGet, hp, if_true, Option.some.injEq] at h
      subst hp
      subst h
      exact List.mem_cons_self p rest
    · simp only [alistGet, hp, if_false] at h
      exact List.mem_cons_of_mem _ (ih h)

theorem alistGet_eq_none {α : Type} {l : List (String × α)} {k : String}
    (h : ∀ p ∈ l, p.1 ≠ k) : alistGet l k = none := by
  induction l with
  | nil => simp [alistGet]
  | cons p rest ih =>
    have hp : p.1 ≠ k := h p (by simp)
    simp [alistGet, hp]
    exact ih fun q hq => h q (List.mem_cons_of_mem _ hq)

/- ### Data model -/

/-- One entry of the `download_progress` dict: the mutable per-job state.
Telemetry strings of the source (speed in MB/s, sizes in MB) are kept as the
underlying rational numbers; the decimal string formatting is elided. -/
structure JobState where
  status : String
  progress : ℚ
  speed : Option ℚ := none
  elapsed : Option ℚ := none
  eta : Option ℚ := none
  size_downloaded : Option ℚ := none
  size_total : Option ℚ := none
  is_audio : Bool := false
  title : Option String := none
  final_path : Option String := none
  error : Option String := none
deriving DecidableEq, Repr

/-- The global mutable state of the server process: the four job-keyed dicts
of `main.py` plus the contents of the download directory, modelled as a list
of (filename, mtime) pairs. -/
structure ServerState where
  download_progress : List (String × JobState) := []
  download_processes : List String := []
  download_threads : List String := []
  download_cancel_flags : List (String × Bool) := []
  files : List (String × Int) := []
deriving DecidableEq, Repr

/-- A raw progress event handed to a `progress_hooks` callback by the
extractor, with the dict fields the hook reads. -/
structure DlEvent where
  status : String
  total_bytes : Option ℚ := none
  total_bytes_estimate : Option ℚ := none
  downloaded_bytes : Option ℚ := none
  speed : Option ℚ := none
deriving DecidableEq, Repr

/-- A raw format dict as produced by the extractor; `none` models an absent
dict key. -/
structure RawFormat where
  format_id : Option String := none
  vcodec : Option String := none
  acodec : Option String := none
  filesize : Option Int := none
  resolution : Option String := none
  format_note : Option String := none
  ext : Option String := none
  fps : Option ℚ := none
deriving DecidableEq, Repr

/-- The message of the exception raised to abort a cancelled download
(`raise Exception("Descarga cancelada por el usuario")`). -/
def cancelMsg : String := "Descarga cancelada por el usuario"

/-- `needle` is a leading segment of `hay` (on character lists, so that the
kernel can evaluate it). -/
def charsStartWith : List Char → List Char → Bool
  | [], _ => true
  | _ :: _, [] => false
  | a :: as, b :: bs => a == b && charsStartWith as bs

/-- `needle` occurs somewhere in `hay`. -/
def charsContain (needle : List Char) : List Char → Bool
  | [] => charsStartWith needle []
  | b :: bs => charsStartWith needle (b :: bs) || charsContain needle bs

/-- Python's substring test `"cancelled" in msg`. -/
def containsCancelled (msg : String) : Bool :=
  charsContain ("cancelled").toList msg.toList

/-- Python's `round(x, 2)` (half-even on floats, idealized as half-up on ℚ;
all values the claims touch are exact). -/
def round2 (x : ℚ) : ℚ := ((round (x * 100) : ℤ) : ℚ) / 100

/-- `video_id in download_cancel_flags and download_cancel_flags[video_id]`. -/
def cancelFlag (s : ServerState) (video_id : String) : Bool :=
  (alistGet s.download_cancel_flags video_id).getD false

/-- `download_progress[id]` looked up safely; `none` models the key missing. -/
def jobOf (s : ServerState) (video_id : String) : Option JobState :=
  alistGet s.download_progress video_id

/-- Mutate the job state under a key if present; the source's
`download_progress[video_id].update(...)` / item assignment.  (On an absent
key the source raises `KeyError`; no claim exercises that path and it is
modelled as a no-op.) -/
def setJobFields (s : ServerState) (video_id : String) (f : JobState → JobState) :
    ServerState :=
  match alistGet s.download_progress video_id with
  | none => s
  | some st =>
    { s with download_progress := alistSet s.download_progress video_id (f st) }

def jobStatus (s : ServerState) (video_id : String) : Option String :=
  (jobOf s video_id).map (·.status)

def jobProgress (s : ServerState) (video_id : String) : Option ℚ :=
  (jobOf s video_id).map (·.progress)

def jobError (s : ServerState) (video_id : String) : Option (Option String) :=
  (jobOf s video_id).map (·.error)

/- ### Progress Tracker (`ProgressHook` in `main.py`) -/

/-- The `ProgressHook` object: a job id and the stage label it was created
for (`ProgressHook(video_id, stage="video")`). -/
structure ProgressHook where
  video_id : String
  stage : String := "video"
deriving DecidableEq, Repr

/-- `ProgressHook.__call__(d)` as a state transformer.

The global `download_cancel_flags` dict is read at two distinct program
points (on entry, and again after recording a `downloading` update); to be
able to express interleavings with the Cancellation Supervisor those two
reads are passed explicitly as `flagPre` and `flagPost`.  In a quiescent
state both equal `cancelFlag s h.video_id`.

`elapsed_time` stands for `time.time() - self.start_time`.

The returned `Option String` is the message of the exception propagating out
of the call (`none` = the call returns normally).  The `try/except` around
the `downloading` branch re-raises a caught exception only when its message
contains the substring "cancelled", and otherwise swallows it, exactly as
the source does. -/
def ProgressHook.call (h : ProgressHook) (elapsed_time : ℚ)
    (flagPre flagPost : Bool) (s : ServerState) (d : DlEvent) :
    Option String × ServerState :=
  if flagPre then (some cancelMsg, s)
  else if d.status = "downloading" then
    -- body of the try block
    let total0 := d.total_bytes.getD 0
    let total := if total0 = 0 then d.total_bytes_estimate.getD 0 else total0
    let downloaded := d.downloaded_bytes.getD 0
    let speed := d.speed.getD 0
    if total ≠ 0 ∧ downloaded ≠ 0 then
      let progress := downloaded / total * 100
      let eta := if speed > 0 then (total - downloaded) / speed else 0
      let base_progress : ℚ :=
        if h.stage = "video" then 0 else if h.stage = "audio" then 45 else 90
      let adjusted_progress := base_progress +
        (if h.stage ≠ "merging" then progress * (45 / 100) else progress * (1 / 10))
      match alistGet s.download_progress h.video_id with
      | none =>
        -- the item access raises KeyError; its message has no "cancelled",
        -- so the except-branch swallows it and the call returns normally
        (none, s)
      | some st =>
        let st1 := { st with
          status := h.stage ++ "_downloading",
          progress := round2 adjusted_progress,
          speed := some speed,
          elapsed := some (round2 elapsed_time),
          eta := some (round2 eta),
          size_downloaded := some downloaded,
          size_total := some total }
        let s1 := { s with
          download_progress := alistSet s.download_progress h.video_id st1 }
        if flagPost then
          -- raise Exception(cancelMsg), caught by the surrounding except:
          -- it re-raises only if "cancelled" occurs in the message
          if containsCancelled cancelMsg then (some cancelMsg, s1) else (none, s1)
        else (none, s1)
    else (none, s)
  else if d.status = "finished" then
    (none,
      if h.stage = "video" then
        setJobFields s h.video_id (fun st => { st with status := "downloading_audio" })
      else if h.stage = "audio" then
        setJobFields s h.video_id
          (fun st => { st with status := "merging", progress := 90 })
      else
        setJobFields s h.video_id
          (fun st => { st with status := "completed", progress := 100 }))
  else if d.status = "error" then
    (none, setJobFields s h.video_id (fun st => { st with status := "error" }))
  else (none, s)

/-- Run a sequence of progress events through the hook, as the extractor
adapter does during one download; both cancel-flag reads of each call see
the current state.  Stops at the first propagating exception. -/
def runHookEvents (h : ProgressHook) (elapsed_time : ℚ) :
    ServerState → List DlEvent → Option String × ServerState
  | s, [] => (none, s)
  | s, d :: rest =>
    let flag := cancelFlag s h.video_id
    match ProgressHook.call h elapsed_time flag flag s d with
    | (some m, s1) => (some m, s1)
    | (none, s1) => runHookEvents h elapsed_time s1 rest

/- ### Job id generation (`video_id = f"{int(time.time())}"`) -/

/-- Decimal digits of `n`, least significant first, with explicit fuel
(the fuel is always sufficient, see `natDecimalRevAux_fuel`). -/
def natDecimalRevAux : Nat → Nat → List Char
  | 0, _ => []
  | fuel + 1, n =>
    if n < 10 then [Nat.digitChar n]
    else Nat.digitChar (n % 10) :: natDecimalRevAux fuel (n / 10)

def natDecimalRev (n : Nat) : List Char := natDecimalRevAux (n + 1) n

/-- Decimal rendering of a natural number, as Python's `f"{n}"`. -/
def natDecimal (n : Nat) : String := String.mk (natDecimalRev n).reverse

/-- The time-derived job identifier assigned at submission:
`f"{int(time.time())}"` with `t` the integer timestamp in seconds. -/
def make_video_id (t : Nat) : String := natDecimal t

theorem natDecimalRevAux_fuel (f1 : Nat) :
    ∀ f2 n, n < f1 → n < f2 → natDecimalRevAux f1 n = natDecimalRevAux f2 n := by
  induction f1 with
  | zero => intro f2 n h1 _; omega
  | succ f1 ih =>
    intro f2 n h1 h2
    match f2 with
    | 0 => omega
    | f2 + 1 =>
      simp only [natDecimalRevAux]
      by_cases hn : n < 10
      · simp [hn]
      · have hd : n / 10 < n := Nat.div_lt_self (by omega) (by omega)
        simp only [hn, if_false]
        rw [ih f2 (n / 10) (by omega) (by omega)]

theorem natDecimalRev_eq (n : Nat) :
    natDecimalRev n =
      if n < 10 then [Nat.digitChar n]
      else Nat.digitChar (n % 10) :: natDecimalRev (n / 10) := by
  show natDecimalRevAux (n + 1) n = _
  simp only [natDecimalRevAux]
  by_cases hn : n < 10
  · simp [hn]
  · have hd : n / 10 < n := Nat.div_lt_self (by omega) (by omega)
    simp only [hn, if_false]
    rw [natDecimalRevAux_fuel n (n / 10 + 1) (n / 10) (by omega) (by omega)]
    rfl

theorem natDecimalRev_ne_nil (n : Nat) : natDecimalRev n ≠ [] := by
  rw [natDecimalRev_eq]
  by_cases hn : n < 10 <;> simp [hn]

theorem digitChar_inj :
    ∀ a, a < 10 → ∀ b, b < 10 → Nat.digitChar a = Nat.digitChar b → a = b := by
  decide

theorem natDecimalRev_inj (n : Nat) :
    ∀ m, natDecimalRev n = natDecimalRev m → n = m := by
  induction n using Nat.strong_induction_on with
  | _ n ih =>
    intro m h
    rw [natDecimalRev_eq n, natDecimalRev_eq m] at h
    by_cases hn : n < 10 <;> by_cases hm : m < 10
    · simp only [hn, hm, if_true] at h
      simp only [List.cons.injEq] at h
      exact digitChar_inj n hn m hm h.1
    · simp only [hn, hm, if_true, if_false, List.cons.injEq] at h
      exact absurd h.2.symm (natDecimalRev_ne_nil _)
    · simp only [hn, hm, if_true, if_false, List.cons.injEq] at h
      exact absurd h.2 (natDecimalRev_ne_nil _)
    · simp only [hn, hm, if_false, List.cons.injEq] at h
      have e1 : n % 10 = m % 10 :=
        digitChar_inj _ (Nat.mod_lt _ (by omega)) _ (Nat.mod_lt _ (by omega)) h.1
      have e2 : n / 10 = m / 10 :=
        ih (n / 10) (Nat.div_lt_self (by omega) (by omega)) (m / 10) h.2
      omega

theorem make_video_id_inj {t u : Nat} (h : make_video_id t = make_video_id u) :
    t = u := by
  apply natDecimalRev_inj
  have h2 : (natDecimalRev t).reverse = (natDecimalRev u).reverse := by
    have := congrArg String.data h
    simpa [natDecimal, make_video_id] using this
  have := congrArg List.reverse h2
  simpa using this

/- ### Job submission (`download` endpoint, lines 531-651) -/

/-- Add an id to a key-set dict (`download_threads[video_id] = thread`,
`download_processes[video_id] = process`). -/
def insertId (l : List String) (video_id : String) : List String :=
  if video_id ∈ l then l else l ++ [video_id]

/-- The registration part of the `download` endpoint: generate the
time-derived id, look the requested `itag` up in the extractor's format list,
create the initial `JobState`, and record the worker thread.  Returns the
assigned id (`none` models the HTTP 500 reply when the selected format does
not exist and `selected_format.get` raises).  The worker itself is spawned
asynchronously and is modelled separately (`download_thread`). -/
def download (s : ServerState) (t : Nat) (itag : String)
    (formats : List RawFormat) (title : String) : Option String × ServerState :=
  let video_id := make_video_id t
  match formats.find? (fun f => f.format_id == some itag) with
  | none => (none, s)
  | some selected_format =>
    let is_audio_only := selected_format.vcodec == some ("none")
    if is_audio_only then
      let final_path := video_id ++ "_final.mp3"
      let st : JobState :=
        { status := "starting", progress := 0, is_audio := true,
          title := some title, final_path := some final_path }
      (some video_id,
        { s with
          download_progress := alistSet s.download_progress video_id st,
          download_threads := insertId s.download_threads video_id })
    else
      let output_path := "video_" ++ video_id ++ ".mp4"
      let st : JobState :=
        { status := "starting", progress := 0, is_audio := false,
          final_path := some output_path }
      (some video_id,
        { s with
          download_progress := alistSet s.download_progress video_id st,
          download_threads := insertId s.download_threads video_id })

/-- The single-invocation worker body (`download_thread` inside `download`):
one adapter call driving the hook (created as `ProgressHook(video_id)`, so
with the default stage "video"), then the final state commit; any exception
is recorded as `status = "error"` with the message as the `error` field.
(The audio-path rename of the temp mp3 file is elided.) -/
def download_thread (video_id : String) (elapsed_time : ℚ)
    (events : List DlEvent) (s : ServerState) : ServerState :=
  let h : ProgressHook := { video_id := video_id }
  match runHookEvents h elapsed_time s events with
  | (none, s1) =>
    setJobFields s1 video_id
      (fun st => { st with status := "completed", progress := 100 })
  | (some m, s1) =>
    setJobFields s1 video_id
      (fun st => { st with status := "error", error := some m })

/- ### The two-stream worker (`download_and_merge`, lines 341-509) -/

/-- `video_id in download_progress and download_progress[video_id].get("status") == x`. -/
def statusIs (s : ServerState) (video_id x : String) : Bool :=
  (alistGet s.download_progress video_id).map JobState.status == some x

/-- The per-stage `except` handlers of `download_and_merge` (lines 372-378,
398-404, 469-471): record the failure unless the message carries the
(English) cancellation marker; `full_msg` is the stored message (with the
stage label prepended for the two download stages). -/
def dam_record_error (video_id msg full_msg : String) (s : ServerState) :
    ServerState :=
  if ¬ containsCancelled msg then
    setJobFields s video_id
      (fun st => { st with status := "error", error := some full_msg })
  else s

/-- The outer `except` of `download_and_merge` (lines 484-488): record the
failure unless the message carries the (English) cancellation marker. -/
def dam_outer (video_id msg : String) (s : ServerState) : ServerState :=
  if ¬ containsCancelled msg ∧ (alistGet s.download_progress video_id).isSome then
    setJobFields s video_id
      (fun st => { st with status := "error", error := some msg })
  else s

/-- The `finally` block of `download_and_merge` (lines 490-509): delete the
temp video/audio files when their paths were assigned, and drop the process
handle. -/
def dam_finally (video_id : String) (video_path audio_path : Option String)
    (s : ServerState) : ServerState :=
  let s1 :=
    match video_path with
    | some p => { s with files := s.files.filter (fun f => f.1 ≠ p) }
    | none => s
  let s2 :=
    match audio_path with
    | some p => { s1 with files := s1.files.filter (fun f => f.1 ≠ p) }
    | none => s1
  { s2 with download_processes := s2.download_processes.filter (· ≠ video_id) }

/-- `download_processes[video_id] = process` (record the encoder handle). -/
def addProcess (s : ServerState) (video_id : String) : ServerState :=
  { s with download_processes := insertId s.download_processes video_id }

/-- `del download_processes[video_id]` (drop the encoder handle). -/
def removeProcess (s : ServerState) (video_id : String) : ServerState :=
  { s with download_processes := s.download_processes.filter (· ≠ video_id) }

/-- The merge stage of `download_and_merge` (lines 406-480): set the state
to merging, spawn the encoder, and after it exits either record the
failure/cancellation (lines 457-473) or commit completion. -/
def dam_merge_stage (video_id : String) (video_path audio_path : String)
    (ffmpeg_returncode : Int) (ffmpeg_stderr : String) (s0 : ServerState) :
    Option String × ServerState :=
  let sm := addProcess (setJobFields s0 video_id
    (fun st => { st with status := "merging", progress := 90 })) video_id
  if (alistGet sm.download_progress video_id).isSome ∧
      (statusIs sm video_id ("cancelled") ∨ ffmpeg_returncode ≠ 0) then
    let error_msg :=
      if statusIs sm video_id ("cancelled") then cancelMsg
      else "Error en FFmpeg: " ++ ffmpeg_stderr
    (some error_msg,
      dam_finally video_id (some video_path) (some audio_path)
        (dam_outer video_id error_msg
          (dam_record_error video_id error_msg error_msg sm)))
  else
    (none,
      dam_finally video_id (some video_path) (some audio_path)
        (setJobFields (removeProcess sm video_id) video_id
          (fun st => { st with status := "completed", progress := 100 })))

/-- `download_and_merge`: download the video stream, then the audio stream,
then run the encoder process and commit the final state.  The external adapter
behaviour is supplied as data: the progress events it delivers per stage, the
temp paths `prepare_filename` returns, and the encoder's exit code and
stderr.  The returned `Option String` is the exception propagating out of
the call, as in `ProgressHook.call`. -/
def download_and_merge (video_id : String) (elapsed_time : ℚ)
    (videoEvents audioEvents : List DlEvent)
    (video_path audio_path : String)
    (ffmpeg_returncode : Int) (ffmpeg_stderr : String)
    (s0 : ServerState) : Option String × ServerState :=
  -- video stage
  let hv : ProgressHook := { video_id := video_id, stage := "video" }
  let rv := runHookEvents hv elapsed_time s0 videoEvents
  let rv : Option String × ServerState :=
    match rv with
    | (some m, s) => (some m, s)
    | (none, s) =>
      -- post-download cancellation check (lines 366-370)
      if statusIs s video_id ("cancelled") then (some cancelMsg, s) else (none, s)
  match rv with
  | (some m, s) =>
    -- inner video except (lines 372-378): the guard looks for "cancelled",
    -- which the Spanish message does not contain
    let s := dam_record_error video_id m ("Error descargando video: " ++ m) s
    (some m, dam_finally video_id none none (dam_outer video_id m s))
  | (none, sv) =>
    -- audio stage
    let ha : ProgressHook := { video_id := video_id, stage := "audio" }
    let ra := runHookEvents ha elapsed_time sv audioEvents
    let ra : Option String × ServerState :=
      match ra with
      | (some m, s) => (some m, s)
      | (none, s) =>
        if statusIs s video_id ("cancelled") then (some cancelMsg, s) else (none, s)
    match ra with
    | (some m, s) =>
      let s := dam_record_error video_id m ("Error descargando audio: " ++ m) s
      (some m, dam_finally video_id (some video_path) none (dam_outer video_id m s))
    | (none, sa) =>
      dam_merge_stage video_id video_path audio_path ffmpeg_returncode
        ffmpeg_stderr sa

/- ### Status polling, artifact fetch, cancellation, retention sweep -/

/-- `get_progress` (lines 523-528): the poll response; `none` models the
`{"status": "not_found"}` reply. -/
def get_progress (s : ServerState) (video_id : String) : Option JobState :=
  alistGet s.download_progress video_id

/-- Result of the artifact-fetch endpoint (`get_video`). -/
inductive FetchResult
  | notFound
  | notReady
  | served (download_name : String) (mimetype : String)
deriving DecidableEq, Repr

/-- `file.isAlphanum`-style cleanup of the title (line 671-673); Python's
unicode `isalnum` is idealized as ASCII alphanumeric and `rstrip` as
dropping trailing spaces. -/
def safe_title_of (t : String) : String :=
  String.mk
    (((t.toList.filter
        (fun c => c.isAlphanum ∨ c ∈ [' ', '-', '_', '|', '.'])).reverse.dropWhile
      (fun c => c = ' ')).reverse)

def fileExists (s : ServerState) (p : String) : Bool :=
  s.files.any (fun f => f.1 == p)

/-- The known temp-file variants removed by the `on_close` callback of
`get_video` (lines 696-700): `base_path = DOWNLOAD_FOLDER/video_id` plus each
listed extension. -/
def tempVariants (video_id : String) : List String :=
  [video_id ++ ".mp3", video_id ++ ".webm", video_id ++ ".m4a",
   video_id ++ "_temp", video_id ++ "_temp.mp3", video_id ++ ".mp4"]

/-- `get_video` (lines 654-707): serve the finished artifact.  Serving
triggers the `on_close` deletion of the final file and its known temp-file
variants, modelled atomically with the send. -/
def get_video (s : ServerState) (video_id : String) : FetchResult × ServerState :=
  match alistGet s.download_progress video_id with
  | none => (.notFound, s)
  | some st =>
    if st.status ≠ "completed" then (.notReady, s)
    else
      match st.final_path with
      | none => (.notFound, s)
      | some final_path =>
        if ¬ fileExists s final_path then (.notFound, s)
        else
          let ext := if st.is_audio then ".mp3" else ".mp4"
          let mime := if st.is_audio then "audio/mpeg" else "video/mp4"
          let download_name :=
            "Angel Downloader | " ++ safe_title_of (st.title.getD ("download")) ++ ext
          let keep := fun (f : String × Int) =>
            f.1 ≠ final_path ∧ f.1 ∉ tempVariants video_id
          let s1 := { s with files := s.files.filter keep }
          (.served download_name mime, s1)

/-- The glob patterns of partial files removed by `cancel_download`
(lines 754-762); `p.*` matches exactly the names starting with `p.`. -/
def cancelPatternHit (video_id name : String) : Bool :=
  (charsStartWith ("video_" ++ video_id ++ ".").toList name.toList) ||
  (charsStartWith ("audio_" ++ video_id ++ ".").toList name.toList) ||
  (charsStartWith ("temp_video_" ++ video_id ++ ".").toList name.toList) ||
  (charsStartWith ("temp_audio_" ++ video_id ++ ".").toList name.toList) ||
  (charsStartWith (video_id ++ "_final.").toList name.toList) ||
  (charsStartWith (video_id ++ "_temp.").toList name.toList)

/-- `cancel_download` (lines 710-792).  Returns the HTTP status (404 when the
id is absent from the registry, 200 on success) and the new state; process
killing is modelled as dropping the process handle (the handle's OS side is
out of the state). -/
def cancel_download (s : ServerState) (video_id : String) : Nat × ServerState :=
  match alistGet s.download_progress video_id with
  | none => (404, s)
  | some st =>
    -- download_cancel_flags[video_id] = True
    let s := { s with
      download_cancel_flags := alistSet s.download_cancel_flags video_id true }
    -- immediate update: status cancelling, progress 0, error message
    let st1 :=
      { st with
        status := "cancelling", progress := 0,
        error := some ("Cancelando descarga...") }
    let s := { s with
      download_progress := alistSet s.download_progress video_id st1 }
    -- kill the process tree and drop the handle (if present)
    let s := { s with
      download_processes := s.download_processes.filter (· ≠ video_id) }
    -- remove partial files matching the job's patterns
    let s := { s with
      files := s.files.filter (fun f => ¬ cancelPatternHit video_id f.1) }
    -- final update: status cancelled, progress 0, error message
    let st2 :=
      { st1 with
        status := "cancelled", progress := 0, error := some cancelMsg }
    let s := { s with
      download_progress := alistSet s.download_progress video_id st2 }
    -- drop the worker-thread reference
    let s := { s with
      download_threads := s.download_threads.filter (· ≠ video_id) }
    (200, s)

/-- `status in ["completed", "error", "cancelled"]`. -/
def isTerminal (status : String) : Bool :=
  status == "completed" || status == "error" || status == "cancelled"

/-- One Retention Sweeper cycle (`cleanup_downloads`, lines 796-827):
remove files older than one hour, then delete every registry entry whose
status is terminal together with its process / thread / cancel-flag
entries. -/
def cleanup_downloads (now : Int) (s : ServerState) : ServerState :=
  let files := s.files.filter (fun f => ¬ (f.2 < now - 3600))
  let termIds :=
    (s.download_progress.filter (fun p => isTerminal p.2.status)).map Prod.fst
  { download_progress := s.download_progress.filter (fun p => p.1 ∉ termIds),
    download_processes := s.download_processes.filter (fun id => id ∉ termIds),
    download_threads := s.download_threads.filter (fun id => id ∉ termIds),
    download_cancel_flags :=
      s.download_cancel_flags.filter (fun p => p.1 ∉ termIds),
    files := files }

/- ### Format resolution (`get_best_audio_for_format`, `ensure_audio_video_format`) -/

/-- Truthiness of `f.get("format_id")`. -/
def truthyId (o : Option String) : Bool :=
  match o with
  | some v => v ≠ ""
  | none => false

/-- The filter of `get_best_audio_for_format` (lines 291-297): audio codec
present, `vcodec == "none"`, and a truthy `format_id`. -/
def isAudioCandidate (f : RawFormat) : Bool :=
  (f.acodec.getD ("none") ≠ "none") && (f.vcodec == some ("none")) &&
    truthyId f.format_id

/-- The sort key `int(x.get("filesize", 0)) if x.get("filesize") else 0`. -/
def filesizeKey (f : RawFormat) : Int :=
  match f.filesize with
  | some n => n
  | none => 0

/-- Python's `max(xs, key=filesizeKey)`: the first element attaining the
maximal key. -/
def maxByFilesize : List RawFormat → Option RawFormat
  | [] => none
  | f :: rest =>
    some (rest.foldl (fun acc g => if filesizeKey acc < filesizeKey g then g else acc) f)

/-- `get_best_audio_for_format(formats, video_format)` (lines 289-306); the
`video_format` argument is unused in the source. -/
def get_best_audio_for_format (formats : List RawFormat) : Option RawFormat :=
  maxByFilesize (formats.filter isAudioCandidate)

/-- `ensure_audio_video_format(format_id, formats)` (lines 309-338). -/
def ensure_audio_video_format (format_id : String) (formats : List RawFormat) :
    String :=
  match formats.find? (fun f => f.format_id == some format_id) with
  | none => "best"
  | some selected_format =>
    if selected_format.acodec.getD ("none") ≠ "none" ∧
        selected_format.vcodec.getD ("none") ≠ "none" then
      format_id
    else if selected_format.vcodec.getD ("none") ≠ "none" ∧
        selected_format.acodec.getD ("none") = "none" then
      match get_best_audio_for_format formats with
      | some best_audio => format_id ++ "+" ++ best_audio.format_id.getD ""
      | none => "best"
    else "best"

/- ### `process_formats` (lines 170-219) -/

/-- One-decimal rendering of a nonnegative rational, Python's `f"{b:.1f}"`
(float rounding idealized as half-up). -/
def render1 (q : ℚ) : String :=
  let n : ℤ := round (q * 10)
  toString (n / 10) ++ "." ++ toString (n % 10)

/-- `format_size` (lines 110-115). -/
def format_size_go : List String → ℚ → String
  | [], b => render1 b ++ "TB"
  | u :: rest, b => if b < 1024 then render1 b ++ u else format_size_go rest (b / 1024)

def format_size (bytes : ℚ) : String :=
  format_size_go ["B", "KB", "MB", "GB"] bytes

/-- The `format_info` dict built for each raw format (lines 177-191). -/
structure FormatInfo where
  itag : Option String
  quality : String
  container : String
  size : String
  raw_size : Int
  vcodec : String
  acodec : String
  fps : ℚ
  format_note : String
deriving DecidableEq, Repr

def truthyInt (o : Option Int) : Bool :=
  match o with
  | some v => v ≠ 0
  | none => false

def mkFormatInfo (f : RawFormat) : FormatInfo :=
  { itag := f.format_id,
    quality :=
      if truthyId f.resolution then f.resolution.getD ("N/A")
      else f.format_note.getD ("N/A"),
    container := f.ext.getD "",
    size :=
      if truthyInt f.filesize then format_size ((f.filesize.getD 0 : ℤ) : ℚ)
      else "N/A",
    raw_size := f.filesize.getD 0,
    vcodec := f.vcodec.getD ("none"),
    acodec := f.acodec.getD ("none"),
    fps := f.fps.getD 0,
    format_note := f.format_note.getD "" }

def qualityKey (fi : FormatInfo) : String := fi.quality ++ "_" ++ fi.container

/-- The classification loop of `process_formats`: one shared `seen_qualities`
set across the three output lists. -/
def process_formats_core :
    List RawFormat → List String →
    List FormatInfo × List FormatInfo × List FormatInfo →
    List FormatInfo × List FormatInfo × List FormatInfo
  | [], _, acc => acc
  | f :: rest, seen, (comb, vid, aud) =>
    let fi := mkFormatInfo f
    let key := qualityKey fi
    if fi.vcodec ≠ "none" ∧ fi.acodec ≠ "none" then
      if key ∈ seen then process_formats_core rest seen (comb, vid, aud)
      else process_formats_core rest (key :: seen) (comb ++ [fi], vid, aud)
    else if fi.vcodec ≠ "none" ∧ fi.acodec = "none" then
      if key ∈ seen then process_formats_core rest seen (comb, vid, aud)
      else process_formats_core rest (key :: seen) (comb, vid ++ [fi], aud)
    else if fi.vcodec = "none" ∧ fi.acodec ≠ "none" then
      if key ∈ seen then process_formats_core rest seen (comb, vid, aud)
      else process_formats_core rest (key :: seen) (comb, vid, aud ++ [fi])
    else process_formats_core rest seen (comb, vid, aud)

/-- The final per-list sort (lines 210-217): stable descending by
`(raw_size, fps)`. -/
def fmtKeyLe (a b : FormatInfo) : Bool :=
  decide (b.raw_size < a.raw_size ∨ (b.raw_size = a.raw_size ∧ b.fps ≤ a.fps))

/-- `process_formats(formats)`: the `(combined, videoOnly, audioOnly)`
triple (dict-of-lists in the source). -/
def process_formats (formats : List RawFormat) :
    List FormatInfo × List FormatInfo × List FormatInfo :=
  let acc := process_formats_core formats [] ([], [], [])
  (acc.1.mergeSort fmtKeyLe, acc.2.1.mergeSort fmtKeyLe,
    acc.2.2.mergeSort fmtKeyLe)

/- ### Claim theorems -/

/-- Claim C2: `cancel_download(jobId)` replies 404 exactly when the id is
absent from the registry; for every registered id the call succeeds and the
job's final status is "cancelled" with progress 0 (also when no progress
event was ever reported: the initial `JobState` is arbitrary). -/
theorem C2_cancel_download_spec (s : ServerState) (video_id : String) :
    (alistGet s.download_progress video_id = none →
      cancel_download s video_id = (404, s)) ∧
    (∀ st, alistGet s.download_progress video_id = some st →
      (cancel_download s video_id).1 = 200 ∧
      jobStatus (cancel_download s video_id).2 video_id = some ("cancelled") ∧
      jobProgress (cancel_download s video_id).2 video_id = some 0) := by
  constructor
  · intro h
    simp [cancel_download, h]
  · intro st h
    simp [cancel_download, h, jobStatus, jobProgress, jobOf, alistGet_set_self]

/-- Witness for C2 at concrete states: an unknown id yields 404 and a
freshly submitted job (no progress event yet) ends cancelled at progress
0. -/
theorem C2_cancel_download_spec_witness :
    (cancel_download {} ("j") = (404, {}) ∧
      jobStatus (cancel_download
        { download_progress :=
            [(("j" : String), ({ status := "starting", progress := 0 } : JobState))] }
        ("j")).2 ("j") = some ("cancelled") ∧
      jobProgress (cancel_download
        { download_progress :=
            [(("j" : String), ({ status := "starting", progress := 0 } : JobState))] }
        ("j")).2 ("j") = some 0) := by
  refine ⟨(C2_cancel_download_spec {} ("j")).1 (by decide), ?h2, ?h3⟩
  · exact (((C2_cancel_download_spec
      { download_progress :=
          [(("j" : String), ({ status := "starting", progress := 0 } : JobState))] }
      ("j")).2 { status := "starting", progress := 0 } (by decide)).2).1
  · exact (((C2_cancel_download_spec
      { download_progress :=
          [(("j" : String), ({ status := "starting", progress := 0 } : JobState))] }
      ("j")).2 { status := "starting", progress := 0 } (by decide)).2).2

/-- Claim C4: for a `downloading` event with known nonzero total and
downloaded byte counts, the recorded overall progress is
`round2 (base + rawPercent * stageWeight)` with base 0 / 45 / 90 and weight
0.45 / 0.45 / 0.10 for the video / audio / merge stages. -/
theorem C4_progress_formula (video_id stage : String) (e : ℚ)
    (s : ServerState) (st : JobState) (d : DlEvent)
    (hstage : stage = "video" ∨ stage = "audio" ∨ stage = "merging")
    (hjob : alistGet s.download_progress video_id = some st)
    (hs : d.status = "downloading")
    (ht : (if d.total_bytes.getD 0 = 0 then d.total_bytes_estimate.getD 0
           else d.total_bytes.getD 0) ≠ 0)
    (hd : d.downloaded_bytes.getD 0 ≠ 0) :
    jobProgress
        (ProgressHook.call { video_id := video_id, stage := stage } e false false s d).2
        video_id =
      some (round2
        ((if stage = "video" then 0 else if stage = "audio" then 45 else 90) +
          (d.downloaded_bytes.getD 0 /
            (if d.total_bytes.getD 0 = 0 then d.total_bytes_estimate.getD 0
             else d.total_bytes.getD 0) * 100) *
          (if stage = "merging" then 1 / 10 else 45 / 100))) := by
  rcases hstage with h | h | h <;> subst h <;>
    simp [ProgressHook.call, hs, ht, hd, hjob, jobProgress, jobOf,
      alistGet_set_self, mul_comm]

/-- Witness for C4: the claim's two instances — a raw 50% video-stage event
records overall progress 22.5, a raw 100% merge-stage event records 100. -/
theorem C4_progress_formula_witness :
    jobProgress (ProgressHook.call { video_id := ("j"), stage := ("video") } 0
        false false
        { download_progress :=
            [(("j" : String), ({ status := "starting", progress := 0 } : JobState))] }
        { status := "downloading", total_bytes := some 200,
          downloaded_bytes := some 100 }).2 ("j") = some (45 / 2) ∧
    jobProgress (ProgressHook.call { video_id := ("j"), stage := ("merging") } 0
        false false
        { download_progress :=
            [(("j" : String), ({ status := "starting", progress := 0 } : JobState))] }
        { status := "downloading", total_bytes := some 100,
          downloaded_bytes := some 100 }).2 ("j") = some 100 := by
  constructor
  · have h := C4_progress_formula ("j") ("video") 0
      { download_progress :=
          [(("j" : String), ({ status := "starting", progress := 0 } : JobState))] }
      { status := "starting", progress := 0 }
      { status := "downloading", total_bytes := some 200,
        downloaded_bytes := some 100 }
      (Or.inl rfl) (by decide) rfl (by decide) (by decide)
    rw [h]
    simp only [round2]
    norm_num [show ¬ ("video" : String) = "merging" by decide]
  · have h := C4_progress_formula ("j") ("merging") 0
      { download_progress :=
          [(("j" : String), ({ status := "starting", progress := 0 } : JobState))] }
      { status := "starting", progress := 0 }
      { status := "downloading", total_bytes := some 100,
        downloaded_bytes := some 100 }
      (Or.inr (Or.inr rfl)) (by decide) rfl (by decide) (by decide)
    rw [h]
    simp only [round2]
    norm_num [show ¬ ("merging" : String) = "video" by decide,
      show ¬ ("merging" : String) = "audio" by decide]

/-- Claim C3, failing part: when the cancel flag is observed only at the
re-check after recording a `downloading` update (`flagPre = false`,
`flagPost = true`), the raised cancellation exception is caught by the
surrounding `except` and swallowed — its Spanish message does not contain
the marker "cancelled" the handler looks for — so the adapter call is NOT
aborted; only the entry check (`flagPre = true`) aborts it. -/
theorem C3_recheck_swallowed :
    let s : ServerState :=
      { download_progress :=
          [(("j" : String), ({ status := "starting", progress := 0 } : JobState))] }
    let d : DlEvent :=
      { status := "downloading", total_bytes := some 200,
        downloaded_bytes := some 100 }
    let h : ProgressHook := { video_id := ("j"), stage := ("video") }
    (ProgressHook.call h 0 false true s d).1 = none ∧
    (ProgressHook.call h 0 true true s d).1 = some cancelMsg ∧
    containsCancelled cancelMsg = false := by
  exact ⟨by decide, by decide, by decide⟩

/-- Claim C1, failing execution: the job is cancelled (flag set, status
committed to "cancelled" by `cancel_download`), then the worker observes the
flag on a `downloading` event and the hook raises the cancellation
exception; because its Spanish message does not contain "cancelled", both
`download_and_merge`'s handlers and the single-file `download_thread`
handler record it into the job state as `status = "error"`, overwriting the
"cancelled" status. -/
theorem C1_cancellation_recorded_as_error :
    let s0 : ServerState :=
      { download_progress :=
          [(("j" : String), ({ status := "starting", progress := 0 } : JobState))],
        download_threads := [("j" : String)] }
    let s1 := (cancel_download s0 ("j")).2
    let r := download_and_merge ("j") 0
      [{ status := "downloading" }] [] ("tv") ("ta") 0 "" s1
    let rt := download_thread ("j") 0 [{ status := "downloading" }] s1
    cancelFlag s1 ("j") = true ∧
    jobStatus s1 ("j") = some ("cancelled") ∧
    r.1 = some cancelMsg ∧
    jobStatus r.2 ("j") = some ("error") ∧
    jobError r.2 ("j") = some (some cancelMsg) ∧
    jobStatus rt ("j") = some ("error") ∧
    jobError rt ("j") = some (some cancelMsg) := by
  exact ⟨by decide, by decide, by decide, by decide, by decide, by decide, by decide⟩

/-- Claim C6: fetching the artifact of a completed job serves it and, on
stream completion, deletes the final file and all its known temp-file
variants; a subsequent fetch for the same job replies NotFound, and a fetch
for a job that is not completed fails without serving a file. -/
theorem C6_fetch_artifact_spec (s : ServerState) (video_id : String) :
    (∀ st fp, alistGet s.download_progress video_id = some st →
      st.status = "completed" → st.final_path = some fp →
      fileExists s fp = true →
      (∃ n m, (get_video s video_id).1 = FetchResult.served n m) ∧
      fileExists (get_video s video_id).2 fp = false ∧
      (∀ v ∈ tempVariants video_id,
        fileExists (get_video s video_id).2 v = false) ∧
      (get_video (get_video s video_id).2 video_id).1 = FetchResult.notFound) ∧
    (∀ st, alistGet s.download_progress video_id = some st →
      st.status ≠ "completed" →
      get_video s video_id = (FetchResult.notReady, s)) := by
  constructor
  · intro st fp hget hst hfp hex
    have hr : get_video s video_id =
        (FetchResult.served
          ("Angel Downloader | " ++
            safe_title_of (st.title.getD ("download")) ++
            (if st.is_audio then ".mp3" else ".mp4"))
          (if st.is_audio then "audio/mpeg" else "video/mp4"),
          { s with files :=
              s.files.filter (fun f => f.1 ≠ fp ∧ f.1 ∉ tempVariants video_id) }) := by
      simp [get_video, hget, hst, hfp, hex]
    have hfe : fileExists (get_video s video_id).2 fp = false := by
      rw [hr]
      simp only [fileExists, List.any_eq_false, List.mem_filter,
        decide_eq_true_eq]
      rintro f ⟨_, hkeep⟩
      simp only [beq_iff_eq]
      exact hkeep.1
    have hvar : ∀ v ∈ tempVariants video_id,
        fileExists (get_video s video_id).2 v = false := by
      intro v hv
      rw [hr]
      simp only [fileExists, List.any_eq_false, List.mem_filter,
        decide_eq_true_eq]
      rintro f ⟨_, hkeep⟩
      simp only [beq_iff_eq]
      intro hfv
      exact hkeep.2 (hfv ▸ hv)
    refine ⟨⟨_, _, by rw [hr]⟩, hfe, hvar, ?hsecond⟩
    rw [hr] at hfe ⊢
    simp only [fileExists] at hfe
    simp [get_video, hget, hst, hfp, fileExists, hfe]
  · intro st hget hst
    simp [get_video, hget, hst]

/-- A server state with one completed job whose artifact and a temp variant
are on disk. -/
def exCompletedState : ServerState :=
  { download_progress :=
      [(("7" : String),
        ({ status := "completed", progress := 100,
           final_path := some ("video_7.mp4") } : JobState))],
    files := [(("video_7.mp4" : String), (0 : Int)), (("7.mp3" : String), 0)] }

/-- A server state with one still-running job. -/
def exRunningState : ServerState :=
  { download_progress :=
      [(("8" : String), ({ status := "starting", progress := 0 } : JobState))] }

/-- Witness for C6 at concrete states: the completed job is served once,
its artifact and the temp variant are gone afterwards, the second fetch
replies NotFound, and a non-completed job is refused. -/
theorem C6_fetch_artifact_spec_witness :
    (∃ n m, (get_video exCompletedState ("7")).1 = FetchResult.served n m) ∧
    fileExists (get_video exCompletedState ("7")).2 ("video_7.mp4") = false ∧
    fileExists (get_video exCompletedState ("7")).2 ("7.mp3") = false ∧
    (get_video (get_video exCompletedState ("7")).2 ("7")).1 =
      FetchResult.notFound ∧
    get_video exRunningState ("8") = (FetchResult.notReady, exRunningState) := by
  have h := (C6_fetch_artifact_spec exCompletedState ("7")).1
    { status := "completed", progress := 100, final_path := some ("video_7.mp4") }
    ("video_7.mp4") (by decide) rfl rfl (by decide)
  have h2 := (C6_fetch_artifact_spec exRunningState ("8")).2
    { status := "starting", progress := 0 } (by decide) (by decide)
  exact ⟨h.1, h.2.1, h.2.2.1 ("7.mp3") (by decide), h.2.2.2, h2⟩

/-- Claim C7: a Retention Sweeper cycle removes every registry entry with a
terminal status together with the job's process-handle, worker-thread and
cancel-flag entries (a later status poll replies not_found), and removes
every file in the download directory older than one hour. -/
theorem C7_retention_sweep_spec (now : Int) (s : ServerState) :
    (∀ video_id st, alistGet s.download_progress video_id = some st →
      isTerminal st.status = true →
      get_progress (cleanup_downloads now s) video_id = none ∧
      video_id ∉ (cleanup_downloads now s).download_processes ∧
      video_id ∉ (cleanup_downloads now s).download_threads ∧
      alistGet (cleanup_downloads now s).download_cancel_flags video_id = none) ∧
    (∀ f ∈ s.files, f.2 < now - 3600 → f ∉ (cleanup_downloads now s).files) := by
  constructor
  · intro video_id st hget hterm
    have hmem : video_id ∈
        (List.filter (fun p => isTerminal p.2.status) s.download_progress).map
          Prod.fst :=
      List.mem_map.mpr ⟨(video_id, st),
        List.mem_filter.mpr ⟨alistGet_mem hget, hterm⟩, rfl⟩
    refine ⟨?g1, ?g2, ?g3, ?g4⟩
    · simp only [get_progress, cleanup_downloads]
      apply alistGet_eq_none
      intro p hp
      have h2 := (List.mem_filter.mp hp).2
      simp only [decide_eq_true_eq] at h2
      intro hk
      exact h2 (by rw [hk]; exact hmem)
    · simp only [cleanup_downloads]
      intro hin
      have h2 := (List.mem_filter.mp hin).2
      simp only [decide_eq_true_eq] at h2
      exact h2 hmem
    · simp only [cleanup_downloads]
      intro hin
      have h2 := (List.mem_filter.mp hin).2
      simp only [decide_eq_true_eq] at h2
      exact h2 hmem
    · simp only [cleanup_downloads]
      apply alistGet_eq_none
      intro p hp
      have h2 := (List.mem_filter.mp hp).2
      simp only [decide_eq_true_eq] at h2
      intro hk
      exact h2 (by rw [hk]; exact hmem)
  · intro f hf hold
    simp only [cleanup_downloads]
    intro hin
    have h2 := (List.mem_filter.mp hin).2
    simp only [decide_eq_true_eq] at h2
    exact h2 hold

/-- A state for the sweep witness: one terminal job with live handle
entries and one stale file. -/
def exSweepState : ServerState :=
  { download_progress :=
      [(("z" : String), ({ status := "completed", progress := 100 } : JobState))],
    download_processes := [("z" : String)],
    download_threads := [("z" : String)],
    download_cancel_flags := [(("z" : String), true)],
    files := [(("stale.mp4" : String), (0 : Int))] }

/-- Witness for C7 at a concrete state and clock. -/
theorem C7_retention_sweep_spec_witness :
    get_progress (cleanup_downloads 10000 exSweepState) ("z") = none ∧
    ("z" : String) ∉ (cleanup_downloads 10000 exSweepState).download_processes ∧
    ("z" : String) ∉ (cleanup_downloads 10000 exSweepState).download_threads ∧
    alistGet (cleanup_downloads 10000 exSweepState).download_cancel_flags ("z")
      = none ∧
    (("stale.mp4" : String), (0 : Int)) ∉ (cleanup_downloads 10000 exSweepState).files := by
  have h := (C7_retention_sweep_spec 10000 exSweepState).1 ("z")
    { status := "completed", progress := 100 } (by decide) (by decide)
  have h2 := (C7_retention_sweep_spec 10000 exSweepState).2
    (("stale.mp4" : String), (0 : Int)) (by decide) (by decide)
  exact ⟨h.1, h.2.1, h.2.2.1, h.2.2.2, h2⟩

/-- Claim C8, counterexample: `int(time.time())` has one-second resolution,
so two submissions within the same second are assigned the SAME JobID and
the second submission overwrites the first job's state (only one registry
entry remains, carrying the second job's title). -/
theorem C8_jobid_collision_counterexample :
    (download {} 100 ("f1")
      [{ format_id := some ("f1"), vcodec := some ("none"),
         acodec := some ("mp4a") }] ("first")).1 = some (make_video_id 100) ∧
    (download (download {} 100 ("f1")
        [{ format_id := some ("f1"), vcodec := some ("none"),
           acodec := some ("mp4a") }] ("first")).2 100 ("f1")
      [{ format_id := some ("f1"), vcodec := some ("none"),
         acodec := some ("mp4a") }] ("second")).1 = some (make_video_id 100) ∧
    (jobOf (download (download {} 100 ("f1")
        [{ format_id := some ("f1"), vcodec := some ("none"),
           acodec := some ("mp4a") }] ("first")).2 100 ("f1")
      [{ format_id := some ("f1"), vcodec := some ("none"),
         acodec := some ("mp4a") }] ("second")).2
        (make_video_id 100)).map JobState.title = some (some ("second")) ∧
    (download (download {} 100 ("f1")
        [{ format_id := some ("f1"), vcodec := some ("none"),
           acodec := some ("mp4a") }] ("first")).2 100 ("f1")
      [{ format_id := some ("f1"), vcodec := some ("none"),
         acodec := some ("mp4a") }] ("second")).2.download_progress.length = 1 := by
  exact ⟨by decide, by decide, by decide, by decide⟩

/-- Claim C8 amended: submissions at DISTINCT integer-second timestamps are
assigned distinct JobIDs (the decimal rendering of the timestamp is
injective); within one second the identifier collides, see the
counterexample. -/
theorem C8_jobid_distinct_times (t u : Nat) (h : t ≠ u) :
    make_video_id t ≠ make_video_id u :=
  fun he => h (make_video_id_inj he)

/-- Witness for the amended C8 at two concrete timestamps. -/
theorem C8_jobid_distinct_times_witness :
    make_video_id 100 ≠ make_video_id 101 :=
  C8_jobid_distinct_times 100 101 (by decide)

theorem foldl_maxBy_mem (l : List RawFormat) : ∀ (a : RawFormat),
    l.foldl (fun acc g => if filesizeKey acc < filesizeKey g then g else acc) a
      ∈ a :: l := by
  induction l with
  | nil => intro a; simp
  | cons x xs ih =>
    intro a
    simp only [List.foldl_cons]
    rcases List.mem_cons.mp (ih (if filesizeKey a < filesizeKey x then x else a))
      with h1 | h1
    · rw [h1]
      by_cases hx : filesizeKey a < filesizeKey x <;> simp [hx]
    · exact List.mem_cons_of_mem _ (List.mem_cons_of_mem _ h1)

theorem foldl_maxBy_ge (l : List RawFormat) : ∀ (a g : RawFormat), g ∈ a :: l →
    filesizeKey g ≤
      filesizeKey (l.foldl
        (fun acc g2 => if filesizeKey acc < filesizeKey g2 then g2 else acc) a) := by
  induction l with
  | nil =>
    intro a g hg
    simp only [List.mem_singleton] at hg
    rw [hg]
    simp
  | cons x xs ih =>
    intro a g hg
    simp only [List.foldl_cons]
    have hab : filesizeKey a ≤
        filesizeKey (if filesizeKey a < filesizeKey x then x else a) := by
      by_cases hx : filesizeKey a < filesizeKey x <;> simp [hx] <;> omega
    have hxb : filesizeKey x ≤
        filesizeKey (if filesizeKey a < filesizeKey x then x else a) := by
      by_cases hx : filesizeKey a < filesizeKey x <;> simp [hx] <;> omega
    have hbf : filesizeKey (if filesizeKey a < filesizeKey x then x else a) ≤
        filesizeKey (List.foldl
          (fun acc g2 => if filesizeKey acc < filesizeKey g2 then g2 else acc)
          (if filesizeKey a < filesizeKey x then x else a) xs) :=
      ih _ _ (List.mem_cons_self _ _)
    rcases List.mem_cons.mp hg with h1 | h1
    · rw [h1]
      exact le_trans hab hbf
    · rcases List.mem_cons.mp h1 with h2 | h2
      · rw [h2]
        exact le_trans hxb hbf
      · exact ih _ g (List.mem_cons_of_mem _ h2)

theorem get_best_audio_spec (formats : List RawFormat) :
    (∀ ba, get_best_audio_for_format formats = some ba →
      ba ∈ formats ∧ isAudioCandidate ba = true ∧
      ∀ g ∈ formats, isAudioCandidate g = true →
        filesizeKey g ≤ filesizeKey ba) ∧
    (get_best_audio_for_format formats = none →
      ∀ g ∈ formats, isAudioCandidate g = false) := by
  constructor
  · intro ba hba
    unfold get_best_audio_for_format maxByFilesize at hba
    cases hfl : formats.filter isAudioCandidate with
    | nil => rw [hfl] at hba; simp at hba
    | cons f rest =>
      rw [hfl] at hba
      simp only [Option.some.injEq] at hba
      have hmemf : ba ∈ f :: rest := hba ▸ foldl_maxBy_mem rest f
      have hmem2 : ba ∈ formats.filter isAudioCandidate := hfl ▸ hmemf
      have hmem3 := List.mem_filter.mp hmem2
      refine ⟨hmem3.1, hmem3.2, ?ge⟩
      intro g hg hcand
      have hgf : g ∈ f :: rest := by
        rw [← hfl]
        exact List.mem_filter.mpr ⟨hg, hcand⟩
      exact hba ▸ foldl_maxBy_ge rest f g hgf
  · intro hnone g hg
    unfold get_best_audio_for_format maxByFilesize at hnone
    cases hfl : formats.filter isAudioCandidate with
    | nil =>
      by_cases hc : isAudioCandidate g
      · exact absurd (List.mem_filter.mpr ⟨hg, hc⟩) (by rw [hfl]; simp)
      · simpa using hc
    | cons f rest => rw [hfl] at hnone; simp at hnone

/-- Claim C5: `ensure_audio_video_format` returns the identifier unchanged
when the selected format carries both codecs; the composite
`format_id+audioId` with `audioId` taken from a maximal-filesize audio-only
format OF THE LIST when the format is video-only and an audio-only stream
exists; and the literal "best" in every other case (unknown identifier,
format without video codec, or no audio-only stream). -/
theorem C5_ensure_audio_video_format_spec (format_id : String)
    (formats : List RawFormat) :
    (formats.find? (fun f => f.format_id == some format_id) = none →
      ensure_audio_video_format format_id formats = "best") ∧
    (∀ sf, formats.find? (fun f => f.format_id == some format_id) = some sf →
      ((sf.acodec.getD ("none") ≠ "none" ∧ sf.vcodec.getD ("none") ≠ "none") →
        ensure_audio_video_format format_id formats = format_id) ∧
      ((sf.vcodec.getD ("none") ≠ "none" ∧ sf.acodec.getD ("none") = "none") →
        (∀ ba, get_best_audio_for_format formats = some ba →
          ∃ aid, ba.format_id = some aid ∧ ba ∈ formats ∧
            isAudioCandidate ba = true ∧
            (∀ g ∈ formats, isAudioCandidate g = true →
              filesizeKey g ≤ filesizeKey ba) ∧
            ensure_audio_video_format format_id formats =
              format_id ++ "+" ++ aid) ∧
        (get_best_audio_for_format formats = none →
          ensure_audio_video_format format_id formats = "best")) ∧
      (sf.vcodec.getD ("none") = "none" →
        ensure_audio_video_format format_id formats = "best")) := by
  constructor
  · intro h
    simp [ensure_audio_video_format, h]
  · intro sf hf
    refine ⟨?bothCodecs, ?videoOnly, ?noVideo⟩
    · intro hc
      simp [ensure_audio_video_format, hf, hc.1, hc.2]
    · intro hc
      constructor
      · intro ba hba
        obtain ⟨hmem, hcand, hge⟩ := (get_best_audio_spec formats).1 ba hba
        have hid : ∃ aid, ba.format_id = some aid := by
          unfold isAudioCandidate truthyId at hcand
          cases hb : ba.format_id with
          | none => rw [hb] at hcand; simp at hcand
          | some v => exact ⟨v, rfl⟩
        obtain ⟨aid, haid⟩ := hid
        refine ⟨aid, haid, hmem, hcand, hge, ?res⟩
        simp [ensure_audio_video_format, hf, hc.1, hc.2, hba, haid]
      · intro hnone
        simp [ensure_audio_video_format, hf, hc.1, hc.2, hnone]
    · intro hv
      simp [ensure_audio_video_format, hf, hv]

/-- A concrete extractor format list: one video-only format, one combined
format, and two audio-only streams of different sizes. -/
def exFormats : List RawFormat :=
  [{ format_id := some ("137"), vcodec := some ("avc1"), acodec := some ("none") },
   { format_id := some ("22"), vcodec := some ("avc1"), acodec := some ("mp4a") },
   { format_id := some ("139"), vcodec := some ("none"), acodec := some ("mp4a"),
     filesize := some 50 },
   { format_id := some ("140"), vcodec := some ("none"), acodec := some ("mp4a"),
     filesize := some 100 }]

/-- Witness for C5: unknown id falls back to "best", a combined format is
used as-is, and a video-only format is paired with the largest audio-only
stream of the list. -/
theorem C5_ensure_audio_video_format_spec_witness :
    ensure_audio_video_format ("999") exFormats = "best" ∧
    ensure_audio_video_format ("22") exFormats = "22" ∧
    ensure_audio_video_format ("137") exFormats = "137+140" := by
  refine ⟨(C5_ensure_audio_video_format_spec ("999") exFormats).1 (by decide),
    ?combined, ?paired⟩
  · exact (((C5_ensure_audio_video_format_spec ("22") exFormats).2
      { format_id := some ("22"), vcodec := some ("avc1"),
        acodec := some ("mp4a") } (by decide)).1 ⟨by decide, by decide⟩)
  · have h := ((((C5_ensure_audio_video_format_spec ("137") exFormats).2
      { format_id := some ("137"), vcodec := some ("avc1"),
        acodec := some ("none") } (by decide)).2.1 ⟨by decide, by decide⟩).1
      { format_id := some ("140"), vcodec := some ("none"),
        acodec := some ("mp4a"), filesize := some 100 } (by decide))
    obtain ⟨aid, haid, _, _, _, hres⟩ := h
    have haid2 : aid = "140" := by
      simp only [Option.some.injEq] at haid
      exact haid.symm
    rw [hres, haid2]
    decide

theorem append_out_perm_comb (c v a : List FormatInfo) (fi : FormatInfo) :
    ((c ++ [fi]) ++ v ++ a).Perm (fi :: (c ++ v ++ a)) := by
  simp only [List.append_assoc, List.singleton_append]
  exact List.perm_middle

theorem append_out_perm_vid (c v a : List FormatInfo) (fi : FormatInfo) :
    (c ++ (v ++ [fi]) ++ a).Perm (fi :: (c ++ v ++ a)) := by
  simp only [List.append_assoc, List.singleton_append]
  refine List.Perm.trans (List.Perm.append_left c ?inner) List.perm_middle
  exact List.perm_middle

theorem append_out_perm_aud (c v a : List FormatInfo) (fi : FormatInfo) :
    (c ++ v ++ (a ++ [fi])).Perm (fi :: (c ++ v ++ a)) := by
  simp only [List.append_assoc, List.singleton_append]
  refine List.Perm.trans (List.Perm.append_left c ?inner) List.perm_middle
  refine List.Perm.trans (List.Perm.append_left v ?inner2) List.perm_middle
  simpa using @List.perm_middle _ fi a []

theorem process_formats_core_inv (fs : List RawFormat) :
    ∀ (seen : List String) (comb vid aud : List FormatInfo),
    (∀ x ∈ comb, x.vcodec ≠ "none" ∧ x.acodec ≠ "none") →
    (∀ x ∈ vid, x.vcodec ≠ "none" ∧ x.acodec = "none") →
    (∀ x ∈ aud, x.vcodec = "none" ∧ x.acodec ≠ "none") →
    (((comb ++ vid ++ aud).map qualityKey).Nodup) →
    (∀ x ∈ comb ++ vid ++ aud, qualityKey x ∈ seen) →
    (∀ x ∈ (process_formats_core fs seen (comb, vid, aud)).1,
        x.vcodec ≠ "none" ∧ x.acodec ≠ "none") ∧
    (∀ x ∈ (process_formats_core fs seen (comb, vid, aud)).2.1,
        x.vcodec ≠ "none" ∧ x.acodec = "none") ∧
    (∀ x ∈ (process_formats_core fs seen (comb, vid, aud)).2.2,
        x.vcodec = "none" ∧ x.acodec ≠ "none") ∧
    ((((process_formats_core fs seen (comb, vid, aud)).1 ++
       (process_formats_core fs seen (comb, vid, aud)).2.1 ++
       (process_formats_core fs seen (comb, vid, aud)).2.2).map
        qualityKey).Nodup) := by
  induction fs with
  | nil =>
    intro seen comb vid aud hc hv ha hnd _
    exact ⟨hc, hv, ha, hnd⟩
  | cons f rest ih =>
    intro seen comb vid aud hc hv ha hnd hseen
    by_cases h1 : (mkFormatInfo f).vcodec ≠ "none" ∧ (mkFormatInfo f).acodec ≠ "none"
    · by_cases hk : qualityKey (mkFormatInfo f) ∈ seen
      · have heq : process_formats_core (f :: rest) seen (comb, vid, aud) =
            process_formats_core rest seen (comb, vid, aud) := by
          simp only [process_formats_core]
          rw [if_pos h1, if_pos hk]
        rw [heq]
        exact ih seen comb vid aud hc hv ha hnd hseen
      · have heq : process_formats_core (f :: rest) seen (comb, vid, aud) =
            process_formats_core rest (qualityKey (mkFormatInfo f) :: seen)
              (comb ++ [mkFormatInfo f], vid, aud) := by
          simp only [process_formats_core]
          rw [if_pos h1, if_neg hk]
        have hknot : qualityKey (mkFormatInfo f) ∉
            (comb ++ vid ++ aud).map qualityKey := by
          intro hmem
          obtain ⟨y, hy, hyk⟩ := List.mem_map.mp hmem
          exact hk (hyk ▸ hseen y hy)
        have hperm := append_out_perm_comb comb vid aud (mkFormatInfo f)
        have hnd2 : (((comb ++ [mkFormatInfo f]) ++ vid ++ aud).map
            qualityKey).Nodup := by
          refine (List.Perm.nodup_iff (List.Perm.map qualityKey hperm)).mpr ?_
          simp only [List.map_cons]
          exact List.nodup_cons.mpr ⟨hknot, hnd⟩
        have hseen2 : ∀ x ∈ (comb ++ [mkFormatInfo f]) ++ vid ++ aud,
            qualityKey x ∈ qualityKey (mkFormatInfo f) :: seen := by
          intro x hx
          rcases List.mem_cons.mp ((List.Perm.mem_iff hperm).mp hx) with h | h
          · rw [h]; exact List.mem_cons_self _ _
          · exact List.mem_cons_of_mem _ (hseen x h)
        have hc2 : ∀ x ∈ comb ++ [mkFormatInfo f],
            x.vcodec ≠ "none" ∧ x.acodec ≠ "none" := by
          intro x hx
          rcases List.mem_append.mp hx with h | h
          · exact hc x h
          · simp only [List.mem_singleton] at h
            rw [h]; exact h1
        rw [heq]
        exact ih (qualityKey (mkFormatInfo f) :: seen) (comb ++ [mkFormatInfo f])
          vid aud hc2 hv ha hnd2 hseen2
    · by_cases h2 : (mkFormatInfo f).vcodec ≠ "none" ∧ (mkFormatInfo f).acodec = "none"
      · by_cases hk : qualityKey (mkFormatInfo f) ∈ seen
        · have heq : process_formats_core (f :: rest) seen (comb, vid, aud) =
              process_formats_core rest seen (comb, vid, aud) := by
            simp only [process_formats_core]
            rw [if_neg h1, if_pos h2, if_pos hk]
          rw [heq]
          exact ih seen comb vid aud hc hv ha hnd hseen
        · have heq : process_formats_core (f :: rest) seen (comb, vid, aud) =
              process_formats_core rest (qualityKey (mkFormatInfo f) :: seen)
                (comb, vid ++ [mkFormatInfo f], aud) := by
            simp only [process_formats_core]
            rw [if_neg h1, if_pos h2, if_neg hk]
          have hknot : qualityKey (mkFormatInfo f) ∉
              (comb ++ vid ++ aud).map qualityKey := by
            intro hmem
            obtain ⟨y, hy, hyk⟩ := List.mem_map.mp hmem
            exact hk (hyk ▸ hseen y hy)
          have hperm := append_out_perm_vid comb vid aud (mkFormatInfo f)
          have hnd2 : ((comb ++ (vid ++ [mkFormatInfo f]) ++ aud).map
              qualityKey).Nodup := by
            refine (List.Perm.nodup_iff (List.Perm.map qualityKey hperm)).mpr ?_
            simp only [List.map_cons]
            exact List.nodup_cons.mpr ⟨hknot, hnd⟩
          have hseen2 : ∀ x ∈ comb ++ (vid ++ [mkFormatInfo f]) ++ aud,
              qualityKey x ∈ qualityKey (mkFormatInfo f) :: seen := by
            intro x hx
            rcases List.mem_cons.mp ((List.Perm.mem_iff hperm).mp hx) with h | h
            · rw [h]; exact List.mem_cons_self _ _
            · exact List.mem_cons_of_mem _ (hseen x h)
          have hv2 : ∀ x ∈ vid ++ [mkFormatInfo f],
              x.vcodec ≠ "none" ∧ x.acodec = "none" := by
            intro x hx
            rcases List.mem_append.mp hx with h | h
            · exact hv x h
            · simp only [List.mem_singleton] at h
              rw [h]; exact h2
          rw [heq]
          exact ih (qualityKey (mkFormatInfo f) :: seen) comb
            (vid ++ [mkFormatInfo f]) aud hc hv2 ha hnd2 hseen2
      · by_cases h3 : (mkFormatInfo f).vcodec = "none" ∧ (mkFormatInfo f).acodec ≠ "none"
        · by_cases hk : qualityKey (mkFormatInfo f) ∈ seen
          · have heq : process_formats_core (f :: rest) seen (comb, vid, aud) =
                process_formats_core rest seen (comb, vid, aud) := by
              simp only [process_formats_core]
              rw [if_neg h1, if_neg h2, if_pos h3, if_pos hk]
            rw [heq]
            exact ih seen comb vid aud hc hv ha hnd hseen
          · have heq : process_formats_core (f :: rest) seen (comb, vid, aud) =
                process_formats_core rest (qualityKey (mkFormatInfo f) :: seen)
                  (comb, vid, aud ++ [mkFormatInfo f]) := by
              simp only [process_formats_core]
              rw [if_neg h1, if_neg h2, if_pos h3, if_neg hk]
            have hknot : qualityKey (mkFormatInfo f) ∉
                (comb ++ vid ++ aud).map qualityKey := by
              intro hmem
              obtain ⟨y, hy, hyk⟩ := List.mem_map.mp hmem
              exact hk (hyk ▸ hseen y hy)
            have hperm := append_out_perm_aud comb vid aud (mkFormatInfo f)
            have hnd2 : ((comb ++ vid ++ (aud ++ [mkFormatInfo f])).map
                qualityKey).Nodup := by
              refine (List.Perm.nodup_iff (List.Perm.map qualityKey hperm)).mpr ?_
              simp only [List.map_cons]
              exact List.nodup_cons.mpr ⟨hknot, hnd⟩
            have hseen2 : ∀ x ∈ comb ++ vid ++ (aud ++ [mkFormatInfo f]),
                qualityKey x ∈ qualityKey (mkFormatInfo f) :: seen := by
              intro x hx
              rcases List.mem_cons.mp ((List.Perm.mem_iff hperm).mp hx) with h | h
              · rw [h]; exact List.mem_cons_self _ _
              · exact List.mem_cons_of_mem _ (hseen x h)
            have ha2 : ∀ x ∈ aud ++ [mkFormatInfo f],
                x.vcodec = "none" ∧ x.acodec ≠ "none" := by
              intro x hx
              rcases List.mem_append.mp hx with h | h
              · exact ha x h
              · simp only [List.mem_singleton] at h
                rw [h]; exact h3
            rw [heq]
            exact ih (qualityKey (mkFormatInfo f) :: seen) comb vid
              (aud ++ [mkFormatInfo f]) hc hv ha2 hnd2 hseen2
        · have heq : process_formats_core (f :: rest) seen (comb, vid, aud) =
              process_formats_core rest seen (comb, vid, aud) := by
            simp only [process_formats_core]
            rw [if_neg h1, if_neg h2, if_neg h3]
          rw [heq]
          exact ih seen comb vid aud hc hv ha hnd hseen

/-- Claim C10: `process_formats` partitions its input by codec presence
(combined / videoOnly / audioOnly), keeps at most one entry per
(quality, container) key ACROSS the three lists (one shared seen-set), and
drops formats carrying neither codec. -/
theorem C10_process_formats_partition (formats : List RawFormat) :
    (∀ x ∈ (process_formats formats).1, x.vcodec ≠ "none" ∧ x.acodec ≠ "none") ∧
    (∀ x ∈ (process_formats formats).2.1, x.vcodec ≠ "none" ∧ x.acodec = "none") ∧
    (∀ x ∈ (process_formats formats).2.2, x.vcodec = "none" ∧ x.acodec ≠ "none") ∧
    ((((process_formats formats).1 ++ (process_formats formats).2.1 ++
        (process_formats formats).2.2).map qualityKey).Nodup) ∧
    (∀ x ∈ (process_formats formats).1 ++ (process_formats formats).2.1 ++
        (process_formats formats).2.2,
      ¬ (x.vcodec = "none" ∧ x.acodec = "none")) := by
  obtain ⟨hc, hv, ha, hnd⟩ := process_formats_core_inv formats [] [] [] []
    (by simp) (by simp) (by simp) (by simp) (by simp)
  have e1 : (process_formats formats).1 =
      (process_formats_core formats [] ([], [], [])).1.mergeSort fmtKeyLe := rfl
  have e2 : (process_formats formats).2.1 =
      (process_formats_core formats [] ([], [], [])).2.1.mergeSort fmtKeyLe := rfl
  have e3 : (process_formats formats).2.2 =
      (process_formats_core formats [] ([], [], [])).2.2.mergeSort fmtKeyLe := rfl
  have p1 : ∀ x ∈ (process_formats formats).1,
      x.vcodec ≠ "none" ∧ x.acodec ≠ "none" := by
    intro x hx
    rw [e1] at hx
    exact hc x (List.mem_mergeSort.mp hx)
  have p2 : ∀ x ∈ (process_formats formats).2.1,
      x.vcodec ≠ "none" ∧ x.acodec = "none" := by
    intro x hx
    rw [e2] at hx
    exact hv x (List.mem_mergeSort.mp hx)
  have p3 : ∀ x ∈ (process_formats formats).2.2,
      x.vcodec = "none" ∧ x.acodec ≠ "none" := by
    intro x hx
    rw [e3] at hx
    exact ha x (List.mem_mergeSort.mp hx)
  have hps : ((process_formats formats).1 ++ (process_formats formats).2.1 ++
      (process_formats formats).2.2).Perm
      ((process_formats_core formats [] ([], [], [])).1 ++
       (process_formats_core formats [] ([], [], [])).2.1 ++
       (process_formats_core formats [] ([], [], [])).2.2) := by
    rw [e1, e2, e3]
    exact List.Perm.append (List.Perm.append (List.mergeSort_perm _ _)
      (List.mergeSort_perm _ _)) (List.mergeSort_perm _ _)
  refine ⟨p1, p2, p3, ?nodup, ?dropped⟩
  · exact (List.Perm.nodup_iff (List.Perm.map qualityKey hps)).mpr hnd
  · intro x hx hcontra
    rcases List.mem_append.mp hx with hx1 | hx3
    · rcases List.mem_append.mp hx1 with hxa | hxb
      · exact (p1 x hxa).1 hcontra.1
      · exact (p2 x hxb).1 hcontra.1
    · exact (p3 x hx3).2 hcontra.2

/-- A concrete extractor format list exercising all four classification
branches of `process_formats` (no filesizes, so the size strings are all
"N/A"). -/
def exListFormats : List RawFormat :=
  [{ format_id := some ("22"), vcodec := some ("avc1"), acodec := some ("mp4a"),
     resolution := some ("720p"), ext := some ("mp4") },
   { format_id := some ("251"), vcodec := some ("none"), acodec := some ("opus"),
     ext := some ("webm") },
   { format_id := some ("248"), vcodec := some ("vp9"), acodec := some ("none"),
     resolution := some ("1080p"), ext := some ("webm") },
   { format_id := some ("sb0"), vcodec := some ("none"), acodec := some ("none"),
     ext := some ("mhtml") }]

/-- The combined member of `exListFormats`. -/
def exCombinedRaw : RawFormat :=
  { format_id := some ("22"), vcodec := some ("avc1"), acodec := some ("mp4a"),
    resolution := some ("720p"), ext := some ("mp4") }

/-- Witness for C10 at `exListFormats`: the combined entry lands in the
combined list and classifies correctly, and the keys across the three
lists are pairwise distinct. -/
theorem C10_process_formats_partition_witness :
    ((mkFormatInfo exCombinedRaw).vcodec ≠ "none" ∧
      (mkFormatInfo exCombinedRaw).acodec ≠ "none") ∧
    ((((process_formats exListFormats).1 ++ (process_formats exListFormats).2.1 ++
        (process_formats exListFormats).2.2).map qualityKey).Nodup) := by
  constructor
  · refine (C10_process_formats_partition exListFormats).1 _ ?mem
    show mkFormatInfo exCombinedRaw ∈
      (process_formats_core exListFormats [] ([], [], [])).1.mergeSort fmtKeyLe
    exact List.mem_mergeSort.mpr (by decide)
  · exact (C10_process_formats_partition exListFormats).2.2.2.1

/- ### Error-field discipline (claim C9) -/

theorem jobError_set_eq (s : ServerState) (k : String) (st st1 : JobState)
    (hk : alistGet s.download_progress k = some st) (he : st1.error = st.error) :
    ∀ id, jobError
      { s with download_progress := alistSet s.download_progress k st1 } id
      = jobError s id := by
  intro id
  by_cases hid : id = k
  · subst hid
    simp [jobError, jobOf, alistGet_set_self, hk, he]
  · simp [jobError, jobOf, alistGet_set_ne _ _ _ _ hid]

theorem jobError_setJobFields (s : ServerState) (k : String)
    (f : JobState → JobState) (hf : ∀ st, (f st).error = st.error) (id : String) :
    jobError (setJobFields s k f) id = jobError s id := by
  unfold setJobFields
  cases hk : alistGet s.download_progress k with
  | none => rfl
  | some st => exact jobError_set_eq s k st (f st) hk (hf st) id

theorem jobError_setJobFields_ne (s : ServerState) (k : String)
    (f : JobState → JobState) (id : String) (hid : id ≠ k) :
    jobError (setJobFields s k f) id = jobError s id := by
  unfold setJobFields
  cases hk : alistGet s.download_progress k with
  | none => rfl
  | some st => simp [jobError, jobOf, alistGet_set_ne _ _ _ _ hid]

theorem ProgressHook_call_preserves_error (h : ProgressHook) (e : ℚ)
    (f1 f2 : Bool) (s : ServerState) (d : DlEvent) (id : String) :
    jobError (ProgressHook.call h e f1 f2 s d).2 id = jobError s id := by
  cases hget : alistGet s.download_progress h.video_id with
  | none =>
    simp only [ProgressHook.call, setJobFields, hget]
    repeat' split
    all_goals rfl
  | some st =>
    simp only [ProgressHook.call, setJobFields, hget]
    repeat' split
    all_goals try rfl
    all_goals dsimp only
    all_goals refine jobError_set_eq s h.video_id st _ hget ?_ id
    all_goals rfl

theorem runHookEvents_preserves_error (h : ProgressHook) (e : ℚ) :
    ∀ (evs : List DlEvent) (s : ServerState) (id : String),
    jobError (runHookEvents h e s evs).2 id = jobError s id := by
  intro evs
  induction evs with
  | nil => intro s id; rfl
  | cons d rest ih =>
    intro s id
    have hpres := ProgressHook_call_preserves_error h e
      (cancelFlag s h.video_id) (cancelFlag s h.video_id) s d id
    simp only [runHookEvents]
    cases hcall : ProgressHook.call h e (cancelFlag s h.video_id)
        (cancelFlag s h.video_id) s d with
    | mk r s1 =>
      rw [hcall] at hpres
      cases r with
      | none =>
        dsimp only
        rw [ih s1 id]
        exact hpres
      | some m => exact hpres

theorem download_thread_error_discipline (video_id : String) (e : ℚ)
    (events : List DlEvent) (s : ServerState) (id : String)
    (hch : jobError (download_thread video_id e events s) id ≠ jobError s id) :
    jobStatus (download_thread video_id e events s) id = some ("error") := by
  have hrunpres := runHookEvents_preserves_error { video_id := video_id } e
    events s id
  unfold download_thread at hch ⊢
  dsimp only at hch ⊢
  cases hrun : runHookEvents { video_id := video_id } e s events with
  | mk r s1 =>
    rw [hrun] at hrunpres hch
    cases r with
    | none =>
      exfalso
      apply hch
      dsimp only
      rw [jobError_setJobFields s1 video_id
        (fun st => { st with status := "completed", progress := 100 })
        (fun st => rfl) id]
      exact hrunpres
    | some m =>
      dsimp only at hch ⊢
      by_cases hid : id = video_id
      · subst hid
        cases hget : alistGet s1.download_progress id with
        | none =>
          exfalso
          apply hch
          unfold setJobFields
          rw [hget]
          exact hrunpres
        | some st =>
          unfold setJobFields
          rw [hget]
          simp [jobStatus, jobOf, alistGet_set_self]
      · exfalso
        apply hch
        rw [jobError_setJobFields_ne s1 video_id _ id hid]
        exact hrunpres

theorem dam_finally_progress (v : String) (p q : Option String) (s : ServerState) :
    (dam_finally v p q s).download_progress = s.download_progress := by
  unfold dam_finally
  cases p <;> cases q <;> rfl

theorem jobError_dam_finally (v : String) (p q : Option String) (s : ServerState)
    (id : String) : jobError (dam_finally v p q s) id = jobError s id := by
  simp [jobError, jobOf, dam_finally_progress]

theorem jobStatus_dam_finally (v : String) (p q : Option String) (s : ServerState)
    (id : String) : jobStatus (dam_finally v p q s) id = jobStatus s id := by
  simp [jobStatus, jobOf, dam_finally_progress]

/-- After the inner stage handler and the outer handler of
`download_and_merge` run on an exception message, either the error field of
any job is untouched or that job's status was set to "error". -/
theorem dam_handlers_discipline (v m fm : String) (s : ServerState) (id : String) :
    (jobError (dam_outer v m (dam_record_error v m fm s)) id = jobError s id) ∨
    (jobStatus (dam_outer v m (dam_record_error v m fm s)) id = some ("error")) := by
  by_cases hcc : containsCancelled m = true
  · left
    unfold dam_record_error dam_outer
    simp [hcc]
  · by_cases hid : id = v
    · subst hid
      cases hget : alistGet s.download_progress id with
      | none =>
        left
        unfold dam_record_error dam_outer setJobFields
        simp [hcc, hget]
      | some st =>
        right
        unfold dam_record_error dam_outer setJobFields
        simp [hcc, hget, alistGet_set_self, jobStatus, jobOf]
    · left
      unfold dam_record_error dam_outer
      by_cases hcc2 : ¬ containsCancelled m = true
      · rw [if_pos hcc2]
        by_cases hsome : (alistGet (setJobFields s v
            (fun st => { st with status := "error", error := some fm })).download_progress
            v).isSome
        · rw [if_pos ⟨hcc2, hsome⟩]
          rw [jobError_setJobFields_ne _ v _ id hid,
            jobError_setJobFields_ne _ v _ id hid]
        · rw [if_neg (fun hx => hsome hx.2)]
          rw [jobError_setJobFields_ne _ v _ id hid]
      · exact absurd (not_not.mp hcc2) hcc

theorem dam_merge_stage_error_discipline (v vp ap : String) (rc : Int)
    (serr : String) (s : ServerState) (id : String)
    (hch : jobError (dam_merge_stage v vp ap rc serr s).2 id ≠ jobError s id) :
    jobStatus (dam_merge_stage v vp ap rc serr s).2 id = some ("error") := by
  unfold dam_merge_stage at hch ⊢
  dsimp only at hch ⊢
  have hm0 : jobError (addProcess (setJobFields s v
      (fun st => { st with status := "merging", progress := 90 })) v) id
      = jobError s id := by
    show jobError (setJobFields s v
      (fun st => { st with status := "merging", progress := 90 })) id
      = jobError s id
    exact jobError_setJobFields s v
      (fun st => { st with status := "merging", progress := 90 })
      (fun st => rfl) id
  by_cases hcond : (alistGet (addProcess (setJobFields s v
        (fun st => { st with status := "merging", progress := 90 })) v).download_progress
        v).isSome = true ∧
      (statusIs (addProcess (setJobFields s v
        (fun st => { st with status := "merging", progress := 90 })) v) v
          ("cancelled") = true ∨ rc ≠ 0)
  · rw [if_pos hcond] at hch ⊢
    dsimp only at hch ⊢
    rcases dam_handlers_discipline v
        (if statusIs (addProcess (setJobFields s v
            (fun st => { st with status := "merging", progress := 90 })) v) v
            ("cancelled") = true
         then cancelMsg else "Error en FFmpeg: " ++ serr)
        (if statusIs (addProcess (setJobFields s v
            (fun st => { st with status := "merging", progress := 90 })) v) v
            ("cancelled") = true
         then cancelMsg else "Error en FFmpeg: " ++ serr)
        (addProcess (setJobFields s v
          (fun st => { st with status := "merging", progress := 90 })) v) id
        with hpres | herr
    · exfalso
      apply hch
      rw [jobError_dam_finally, hpres]
      exact hm0
    · rw [jobStatus_dam_finally]
      exact herr
  · rw [if_neg hcond] at hch ⊢
    exfalso
    apply hch
    dsimp only
    rw [jobError_dam_finally]
    rw [jobError_setJobFields _ v
      (fun st => { st with status := "completed", progress := 100 })
      (fun st => rfl) id]
    exact hm0

theorem download_and_merge_error_discipline (v : String) (e : ℚ)
    (ve ae : List DlEvent) (vp ap : String) (rc : Int) (serr : String)
    (s : ServerState) (id : String)
    (hch : jobError (download_and_merge v e ve ae vp ap rc serr s).2 id ≠
      jobError s id) :
    jobStatus (download_and_merge v e ve ae vp ap rc serr s).2 id =
      some ("error") := by
  unfold download_and_merge at hch ⊢
  dsimp only at hch ⊢
  have hp1 := runHookEvents_preserves_error { video_id := v, stage := "video" }
    e ve s id
  cases hrun1 : runHookEvents { video_id := v, stage := "video" } e s ve with
  | mk r1 s1 =>
    rw [hrun1] at hp1 hch
    cases r1 with
    | some m =>
      dsimp only at hch ⊢
      rcases dam_handlers_discipline v m ("Error descargando video: " ++ m) s1 id
        with hpres | herr
      · exfalso
        apply hch
        rw [jobError_dam_finally, hpres]
        exact hp1
      · rw [jobStatus_dam_finally]
        exact herr
    | none =>
      dsimp only at hch ⊢
      by_cases hst1 : statusIs s1 v ("cancelled") = true
      · rw [if_pos hst1] at hch ⊢
        dsimp only at hch ⊢
        rcases dam_handlers_discipline v cancelMsg ("Error descargando video: "
            ++ cancelMsg) s1 id with hpres | herr
        · exfalso
          apply hch
          rw [jobError_dam_finally, hpres]
          exact hp1
        · rw [jobStatus_dam_finally]
          exact herr
      · rw [if_neg (fun hx => hst1 hx)] at hch ⊢
        dsimp only at hch ⊢
        have hp2 := runHookEvents_preserves_error
          { video_id := v, stage := "audio" } e ae s1 id
        cases hrun2 : runHookEvents { video_id := v, stage := "audio" } e s1 ae with
        | mk r2 s2 =>
          rw [hrun2] at hp2 hch
          have hp12 : jobError s2 id = jobError s id := by rw [hp2, hp1]
          cases r2 with
          | some m =>
            dsimp only at hch ⊢
            rcases dam_handlers_discipline v m ("Error descargando audio: " ++ m)
              s2 id with hpres | herr
            · exfalso
              apply hch
              rw [jobError_dam_finally, hpres]
              exact hp12
            · rw [jobStatus_dam_finally]
              exact herr
          | none =>
            dsimp only at hch ⊢
            by_cases hst2 : statusIs s2 v ("cancelled") = true
            · rw [if_pos hst2] at hch ⊢
              dsimp only at hch ⊢
              rcases dam_handlers_discipline v cancelMsg
                  ("Error descargando audio: " ++ cancelMsg) s2 id
                with hpres | herr
              · exfalso
                apply hch
                rw [jobError_dam_finally, hpres]
                exact hp12
              · rw [jobStatus_dam_finally]
                exact herr
            · rw [if_neg (fun hx => hst2 hx)] at hch ⊢
              dsimp only at hch ⊢
              exact dam_merge_stage_error_discipline v vp ap rc serr s2 id
                (fun heq => hch (heq.trans hp12))

theorem cancel_download_error_discipline (s : ServerState) (v id : String)
    (hch : jobError (cancel_download s v).2 id ≠ jobError s id) :
    jobStatus (cancel_download s v).2 id = some ("cancelled") := by
  unfold cancel_download at hch ⊢
  cases hget : alistGet s.download_progress v with
  | none =>
    rw [hget] at hch
    exact absurd rfl hch
  | some st =>
    rw [hget] at hch
    dsimp only at hch ⊢
    by_cases hid : id = v
    · subst hid
      simp [jobStatus, jobOf, alistGet_set_self]
    · exfalso
      apply hch
      simp [jobError, jobOf, alistGet_set_ne _ _ _ _ hid]

theorem alistGet_filter_keep {α : Type} (l : List (String × α))
    (p : String × α → Bool) (k : String)
    (hkeep : ∀ q ∈ l, q.1 = k → p q = true) :
    alistGet (l.filter p) k = alistGet l k := by
  induction l with
  | nil => rfl
  | cons q rest ih =>
    by_cases hq : q.1 = k
    · have hp : p q = true := hkeep q (by simp) hq
      simp [List.filter, hp, alistGet, hq]
    · have ihr := ih fun r hr hrk => hkeep r (List.mem_cons_of_mem _ hr) hrk
      cases hp : p q with
      | true => simp [List.filter, hp, alistGet, hq, ihr]
      | false => simp [List.filter, hp, alistGet, hq, ihr]

theorem cleanup_downloads_error_discipline (now : Int) (s : ServerState)
    (id : String) :
    jobError (cleanup_downloads now s) id = jobError s id ∨
    jobError (cleanup_downloads now s) id = none := by
  by_cases hmem : id ∈
      (List.filter (fun p => isTerminal p.2.status) s.download_progress).map
        Prod.fst
  · right
    simp only [cleanup_downloads, jobError, jobOf]
    rw [alistGet_eq_none]
    · rfl
    · intro p hp hk
      have h2 := (List.mem_filter.mp hp).2
      simp only [decide_eq_true_eq] at h2
      exact h2 (by rw [hk]; exact hmem)
  · left
    simp only [cleanup_downloads, jobError, jobOf]
    rw [alistGet_filter_keep]
    intro q _ hqk
    simp only [decide_eq_true_eq]
    intro hin
    exact hmem (by rw [← hqk]; exact hin)

theorem get_video_progress_eq (s : ServerState) (v : String) :
    (get_video s v).2.download_progress = s.download_progress := by
  unfold get_video
  repeat' split
  all_goals rfl

theorem get_video_error_discipline (s : ServerState) (v id : String) :
    jobError (get_video s v).2 id = jobError s id := by
  simp [jobError, jobOf, get_video_progress_eq]

theorem download_error_discipline (s : ServerState) (t : Nat) (itag : String)
    (formats : List RawFormat) (title : String) (id : String) :
    jobError (download s t itag formats title).2 id = jobError s id ∨
    jobError (download s t itag formats title).2 id = some none := by
  unfold download
  cases hf : formats.find? (fun f => f.format_id == some itag) with
  | none => left; rfl
  | some sf =>
    dsimp only
    by_cases hid : id = make_video_id t
    · subst hid
      by_cases ha : (sf.vcodec == some ("none")) = true
      · rw [if_pos ha]
        right
        simp [jobError, jobOf, alistGet_set_self]
      · rw [if_neg ha]
        right
        simp [jobError, jobOf, alistGet_set_self]
    · by_cases ha : (sf.vcodec == some ("none")) = true
      · rw [if_pos ha]
        left
        simp [jobError, jobOf, alistGet_set_ne _ _ _ _ hid]
      · rw [if_neg ha]
        left
        simp [jobError, jobOf, alistGet_set_ne _ _ _ _ hid]

/-- Claim C9, counterexample: `cancel_download` on a registered job stores a
human-readable message into the `error` field while the status it sets is
"cancelled" (and transiently "cancelling"), not "error" — so the error field
is NOT written only when `status == error`. -/
theorem C9_cancel_writes_error_counterexample :
    jobError (cancel_download
      { download_progress :=
          [(("j" : String), ({ status := "starting", progress := 0 } : JobState))] }
      ("j")).2 ("j") = some (some cancelMsg) ∧
    jobStatus (cancel_download
      { download_progress :=
          [(("j" : String), ({ status := "starting", progress := 0 } : JobState))] }
      ("j")).2 ("j") = some ("cancelled") ∧
    ("cancelled" : String) ≠ "error" := by
  exact ⟨by decide, by decide, by decide⟩

/-- Claim C9 as amended: across all modelled operations, a message is stored
into the `error` field only together with status "error" — except
cancellation, which stores its message while setting status "cancelling" and
then "cancelled".  Concretely: the progress hook and a whole adapter run
never change any job's `error`; the single-file worker and
`download_and_merge` change it only when they set that job's status to
"error"; `cancel_download` changes it only for the cancelled job, whose
final status is "cancelled"; the sweeper either preserves the field or
removes the whole entry; serving an artifact never touches it; and
submission only resets the field to absent. -/
theorem C9_error_field_discipline :
    (∀ (h : ProgressHook) (e : ℚ) (f1 f2 : Bool) (s : ServerState)
        (d : DlEvent) (id : String),
      jobError (ProgressHook.call h e f1 f2 s d).2 id = jobError s id) ∧
    (∀ (h : ProgressHook) (e : ℚ) (evs : List DlEvent) (s : ServerState)
        (id : String),
      jobError (runHookEvents h e s evs).2 id = jobError s id) ∧
    (∀ (v : String) (e : ℚ) (evs : List DlEvent) (s : ServerState) (id : String),
      jobError (download_thread v e evs s) id ≠ jobError s id →
      jobStatus (download_thread v e evs s) id = some ("error")) ∧
    (∀ (v : String) (e : ℚ) (ve ae : List DlEvent) (vp ap : String) (rc : Int)
        (serr : String) (s : ServerState) (id : String),
      jobError (download_and_merge v e ve ae vp ap rc serr s).2 id ≠
        jobError s id →
      jobStatus (download_and_merge v e ve ae vp ap rc serr s).2 id =
        some ("error")) ∧
    (∀ (s : ServerState) (v id : String),
      jobError (cancel_download s v).2 id ≠ jobError s id →
      jobStatus (cancel_download s v).2 id = some ("cancelled")) ∧
    (∀ (now : Int) (s : ServerState) (id : String),
      jobError (cleanup_downloads now s) id = jobError s id ∨
      jobError (cleanup_downloads now s) id = none) ∧
    (∀ (s : ServerState) (v id : String),
      jobError (get_video s v).2 id = jobError s id) ∧
    (∀ (s : ServerState) (t : Nat) (itag : String) (formats : List RawFormat)
        (title : String) (id : String),
      jobError (download s t itag formats title).2 id = jobError s id ∨
      jobError (download s t itag formats title).2 id = some none) :=
  ⟨ProgressHook_call_preserves_error,
   fun h e evs s id => runHookEvents_preserves_error h e evs s id,
   download_thread_error_discipline,
   download_and_merge_error_discipline,
   cancel_download_error_discipline,
   cleanup_downloads_error_discipline,
   get_video_error_discipline,
   download_error_discipline⟩

/-- Witness for the amended C9: applying the cancellation conjunct at a
concrete state where cancelling does change the error field, and the
single-file worker conjunct at a state where the cancellation exception is
recorded. -/
theorem C9_error_field_discipline_witness :
    jobStatus (cancel_download
      { download_progress :=
          [(("j" : String), ({ status := "starting", progress := 0 } : JobState))] }
      ("j")).2 ("j") = some ("cancelled") ∧
    jobStatus (download_thread ("j") 0 [{ status := "downloading" }]
      { download_progress :=
          [(("j" : String), ({ status := "starting", progress := 0 } : JobState))],
        download_cancel_flags := [(("j" : String), true)] }) ("j") =
      some ("error") := by
  constructor
  · exact C9_error_field_discipline.2.2.2.2.1
      { download_progress :=
          [(("j" : String), ({ status := "starting", progress := 0 } : JobState))] }
      ("j") ("j") (by decide)
  · exact C9_error_field_discipline.2.2.1 ("j") 0 [{ status := "downloading" }]
      { download_progress :=
          [(("j" : String), ({ status := "starting", progress := 0 } : JobState))],
        download_cancel_flags := [(("j" : String), true)] }
      ("j") (by decide)
